import Mathlib

/-!
Verification of the ColdHarbor data-access layer: the identifier allocator
(FirebaseStorage.getNextId / initializeCounters), the document normalizer
(convertFirestoreData / convertFirestoreCollection) and the record store
(create / get / update / delete per entity kind), shallowly embedded from
the TypeScript source.

Modelling choices:
* Stored values are modelled by the inductive `Value`.  Numbers are
  integers (every number this layer manipulates is an allocated integer
  identifier or a counter); the provider timestamp and the platform date
  each carry an integer instant.
* A document is an association list from field names to values; a
  collection is an association list from string keys to documents.
  Lookups, writes and JS object-literal overriding are `aGet` / `aSet` /
  `aMerge` below, with later writes overriding earlier bindings exactly
  as later keys of a JS object literal override earlier ones.
* JS truthiness, `x || y`, `x + 1` on counter values, `toString`, and
  `Number(string)` coercion are embedded for this value domain.  For the
  two object-valued cases (timestamp, date), `x + 1` concatenates the
  object's string form, as JS does; their string forms are fixed tags,
  the one place the embedding chooses a printable stand-in.
* The provider stores a JS `Date` as a timestamp: writes pass through
  `dSerialize`, which maps each date value to the timestamp of the same
  instant, so a re-read returns a timestamp where a date was written.
* Fallible operations return `Except String`: a thrown error (`throw new
  Error`, a failed `transaction.update`, calling `toDate` on a value
  that has no such method) is `.error`, a returned `null` is `.ok none`.
-/

/-- A Firestore-storable value as this layer uses it. -/
inductive Value where
  | vNull : Value
  | vBool : Bool → Value
  | vNum : Int → Value
  | vStr : String → Value
  | vTimestamp : Int → Value
  | vDate : Int → Value
deriving DecidableEq, Repr

/-- JS truthiness of a stored value (null, 0, and the empty string are falsy). -/
def Value.truthy : Value → Bool
  | .vNull => false
  | .vBool b => b
  | .vNum n => n != 0
  | .vStr s => s != ""
  | .vTimestamp _ => true
  | .vDate _ => true

/-- JS string form of a value, as used by `id.toString()`; the two object
cases carry a fixed tag. -/
def Value.jsToString : Value → String
  | .vNull => "null"
  | .vBool b => if b then "true" else "false"
  | .vNum n => toString n
  | .vStr s => s
  | .vTimestamp t => "Timestamp(" ++ toString t ++ ")"
  | .vDate t => "Date(" ++ toString t ++ ")"

/-- JS `x + 1`: numeric addition on numbers, numeric coercion of null and
booleans, string concatenation otherwise. -/
def Value.jsPlusOne : Value → Value
  | .vNum n => .vNum (n + 1)
  | .vNull => .vNum 1
  | .vBool b => .vNum (if b then 2 else 1)
  | v => .vStr (v.jsToString ++ "1")

/-- The `.toDate()` method: defined on provider timestamps, a thrown
TypeError on every other value. -/
def Value.toDate : Value → Except String Value
  | .vTimestamp t => .ok (.vDate t)
  | _ => .error "TypeError: toDate is not a function"

/-- JS `x || null` applied to a possibly-absent field value. -/
def orNull (o : Option Value) : Value :=
  match o with
  | some v => if v.truthy then v else Value.vNull
  | none => Value.vNull

/-- Digits of a decimal literal to its value; `none` when the character
list is empty or holds a non-digit. -/
def digitsToNat (cs : List Char) : Option Nat :=
  if cs = [] then none
  else if cs.all Char.isDigit then
    some (cs.foldl (fun a c => a * 10 + (c.toNat - Char.toNat '0')) 0)
  else none

/-- JS `Number(s)` on the integer fragment this store's keys live in:
surrounding whitespace is trimmed, the empty string coerces to 0, an
optionally signed digit string coerces to its value, everything else is
NaN (`none`). -/
def jsStringToNumber (s : String) : Option Int :=
  let cs := ((s.toList.dropWhile Char.isWhitespace).reverse.dropWhile
    Char.isWhitespace).reverse
  match cs with
  | [] => some 0
  | '-' :: rest => (digitsToNat rest).map (fun n => -(n : Int))
  | '+' :: rest => (digitsToNat rest).map (fun n => (n : Int))
  | _ => (digitsToNat cs).map (fun n => (n : Int))

/-- Key coercion of `convertFirestoreData`: `if (!isNaN(Number(id))) id =
Number(id)`. -/
def coerceKey (key : String) : Value :=
  match jsStringToNumber key with
  | some n => Value.vNum n
  | none => Value.vStr key

/-- Lookup in an association list (a JS object read / a keyed document
read). -/
def aGet {α : Type} : List (String × α) → String → Option α
  | [], _ => none
  | p :: t, k => if p.1 = k then some p.2 else aGet t k

/-- Removal of every binding of a key (document deletion / the
normalized form behind an overriding write). -/
def aRemove {α : Type} : List (String × α) → String → List (String × α)
  | [], _ => []
  | p :: t, k => if p.1 = k then aRemove t k else p :: aRemove t k

/-- Binding write: the new binding overrides any previous binding of the
same key. -/
def aSet {α : Type} (d : List (String × α)) (k : String) (v : α) :
    List (String × α) :=
  (k, v) :: aRemove d k

/-- JS spread `{...base, ...upd}` / a partial-field update: every binding
of `upd` overrides the base. -/
def aMerge {α : Type} (base upd : List (String × α)) : List (String × α) :=
  upd.foldl (fun acc p => aSet acc p.1 p.2) base

/-- A stored document: named fields with values. -/
abbrev Doc := List (String × Value)

/-- A keyed collection of documents. -/
abbrev Coll := List (String × Doc)

/-- Provider-side write conversion: a JS date value is stored as the
provider timestamp of the same instant. -/
def Value.serializeV : Value → Value
  | .vDate t => .vTimestamp t
  | v => v

/-- Write conversion of a whole document. -/
def dSerialize (d : Doc) : Doc := d.map (fun p => (p.1, p.2.serializeV))

/-- A document snapshot as `doc.get()` returns it: the document id (its
string key) and its data, `none` when the document does not exist. -/
structure Snapshot where
  key : String
  data : Option Doc
deriving DecidableEq, Repr

/-- The snapshot's `exists` property: a `DocumentSnapshot` exists exactly
when `data()` is defined. -/
def Snapshot.docExists (d : Snapshot) : Bool := d.data.isSome

/-- A query result set. -/
structure QuerySnapshot where
  docs : List Snapshot
deriving DecidableEq, Repr

/-- The query snapshot's `empty` property. -/
def QuerySnapshot.qEmpty (s : QuerySnapshot) : Bool := s.docs.isEmpty

/-- One conditional timestamp spread of `convertFirestoreData`:
`...(data.k && \x7b k: data.k.toDate() \x7d)` contributes nothing when the
field is absent or falsy, the singleton converted binding when the field
is truthy (propagating the TypeError when a truthy value has no
`toDate`). -/
def timestampSpread (data : Doc) (k : String) : Except String Doc :=
  match aGet data k with
  | none => .ok []
  | some v =>
    if v.truthy then
      match v.toDate with
      | .error e => .error e
      | .ok d => .ok [(k, d)]
    else .ok []

/-- Embedding of `convertFirestoreData`: `null` for a missing document,
otherwise the object literal that spreads the raw data, overrides `id`
with the coerced key, and overrides each of the three well-known date
fields with its converted value when the raw field is truthy. -/
def convertFirestoreData (doc : Snapshot) : Except String (Option Doc) :=
  if !doc.docExists then .ok none
  else
    match doc.data with
    | none => .ok none
    | some data =>
      match timestampSpread data "createdAt" with
      | .error e => .error e
      | .ok p1 =>
        match timestampSpread data "entryDate" with
        | .error e => .error e
        | .ok p2 =>
          match timestampSpread data "exitDate" with
          | .error e => .error e
          | .ok p3 =>
            .ok (some (aMerge (aMerge (aMerge
              (aSet data "id" (coerceKey doc.key)) p1) p2) p3))

/-- The per-document body of `convertFirestoreCollection`: identical to
`convertFirestoreData` except that it never consults `exists` and yields
the empty object, not `null`, when `data()` is undefined. -/
def convertDocInCollection (doc : Snapshot) : Except String Doc :=
  match doc.data with
  | none => .ok []
  | some data =>
    match timestampSpread data "createdAt" with
    | .error e => .error e
    | .ok p1 =>
      match timestampSpread data "entryDate" with
      | .error e => .error e
      | .ok p2 =>
        match timestampSpread data "exitDate" with
        | .error e => .error e
        | .ok p3 =>
          .ok (aMerge (aMerge (aMerge
            (aSet data "id" (coerceKey doc.key)) p1) p2) p3)

/-- JS `Array.map` over a callback that may throw: elements are processed
in order and the first thrown error aborts the whole map. -/
def mapExcept {α : Type} (f : Snapshot → Except String α) :
    List Snapshot → Except String (List α)
  | [] => .ok []
  | d :: ds =>
    match f d with
    | .error e => .error e
    | .ok r =>
      match mapExcept f ds with
      | .error e => .error e
      | .ok rs => .ok (r :: rs)

/-- Embedding of `convertFirestoreCollection`: the empty array for an
empty snapshot, otherwise the per-document transform mapped over
`snapshot.docs`. -/
def convertFirestoreCollection (snap : QuerySnapshot) :
    Except String (List Doc) :=
  if snap.qEmpty then .ok []
  else mapExcept convertDocInCollection snap.docs

/-- The whole store: the three entity collections plus the
`system/counters` document (`none` when that document does not exist). -/
structure Store where
  users : Coll
  trades : Coll
  collections : Coll
  counters : Option Doc
deriving DecidableEq, Repr

/-- The counters document `initializeCounters` writes when none exists. -/
def counters0 : Doc :=
  [("userId", Value.vNum 1), ("tradeId", Value.vNum 1),
   ("collectionId", Value.vNum 1)]

/-- Embedding of `FirebaseStorage.initializeCounters`: create the
counters document, all three counters at 1, only when it is absent. -/
def initializeCounters (s : Store) : Store :=
  match s.counters with
  | some _ => s
  | none => { s with counters := some counters0 }

/-- A store with no documents at all. -/
def emptyStore : Store := { users := [], trades := [], collections := [], counters := none }

/-- A store whose counters have just been initialized. -/
def freshStore : Store := initializeCounters emptyStore

/-- Embedding of `FirebaseStorage.getNextId`: inside the provider
transaction, read `data()?.[counterName] || 1`, write back the JS value
`current + 1`, and return `current`.  `transaction.update` on the absent
counters document makes the whole transaction throw. -/
def getNextId (s : Store) (counterName : String) :
    Except String (Value × Store) :=
  match s.counters with
  | none => .error "NOT_FOUND: cannot update a missing document"
  | some d =>
    let currentValue :=
      match aGet d counterName with
      | some v => if v.truthy then v else Value.vNum 1
      | none => Value.vNum 1
    .ok (currentValue,
      { s with counters := some (aSet d counterName currentValue.jsPlusOne) })

/-- N sequential calls to `getNextId`, collecting the returned
identifiers in call order. -/
def iterNextIds (name : String) : Nat → Store → Except String (List Value × Store)
  | 0, s => .ok ([], s)
  | Nat.succ n, s =>
    match getNextId s name with
    | .error e => .error e
    | .ok (v, s₁) =>
      match iterNextIds name n s₁ with
      | .error e => .error e
      | .ok (vs, s₂) => .ok (v :: vs, s₂)

/-- Embedding of `FirebaseStorage.createUser`: allocate an id, stamp the
creation date, build the object literal (later keys override the insert
payload), write it under `id.toString()` and return it as constructed. -/
def createUser (s : Store) (now : Int) (insertUser : Doc) :
    Except String (Doc × Store) :=
  match getNextId s "userId" with
  | .error e => .error e
  | .ok (idv, s₁) =>
    let user :=
      aSet (aSet (aSet (aSet (aSet (aSet insertUser
        "id" idv)
        "createdAt" (Value.vDate now))
        "stripeCustomerId" Value.vNull)
        "stripeSubscriptionId" Value.vNull)
        "planType" (Value.vStr "free"))
        "avatar" (orNull (aGet insertUser "avatar"))
    .ok (user, { s₁ with users := aSet s₁.users idv.jsToString (dSerialize user) })

/-- Embedding of `FirebaseStorage.updateUserStripeInfo`. -/
def updateUserStripeInfo (s : Store) (userId : Int)
    (customerId subscriptionId : String) : Except String (Doc × Store) :=
  let key := (Value.vNum userId).jsToString
  match aGet s.users key with
  | none => .error "User not found"
  | some udoc =>
    let updatedData : Doc :=
      [("stripeCustomerId", Value.vStr customerId),
       ("stripeSubscriptionId", Value.vStr subscriptionId)]
    let s₁ := { s with users := aSet s.users key (aMerge udoc (dSerialize updatedData)) }
    match convertFirestoreData ⟨key, aGet s₁.users key⟩ with
    | .error e => .error e
    | .ok none => .error "Failed to update user"
    | .ok (some updatedUser) => .ok (updatedUser, s₁)

/-- Embedding of `FirebaseStorage.updateUserPlan`. -/
def updateUserPlan (s : Store) (userId : Int) (planType : String) :
    Except String (Doc × Store) :=
  let key := (Value.vNum userId).jsToString
  match aGet s.users key with
  | none => .error "User not found"
  | some udoc =>
    let users₁ := aSet s.users key (aMerge udoc (dSerialize [("planType", Value.vStr planType)]))
    let s₁ := { s with users := users₁ }
    match convertFirestoreData ⟨key, aGet s₁.users key⟩ with
    | .error e => .error e
    | .ok none => .error "Failed to update user"
    | .ok (some updatedUser) => .ok (updatedUser, s₁)

/-- Embedding of `FirebaseStorage.createTrade`. -/
def createTrade (s : Store) (now : Int) (insertTrade : Doc) :
    Except String (Doc × Store) :=
  match getNextId s "tradeId" with
  | .error e => .error e
  | .ok (idv, s₁) =>
    let trade :=
      aSet (aSet (aSet (aSet insertTrade
        "id" idv)
        "createdAt" (Value.vDate now))
        "notes" (orNull (aGet insertTrade "notes")))
        "collectionId" (orNull (aGet insertTrade "collectionId"))
    .ok (trade, { s₁ with trades := aSet s₁.trades idv.jsToString (dSerialize trade) })

/-- Embedding of `FirebaseStorage.getTrade`: fetch by key, normalize,
and turn a `null` result into an absent one (`tradeData || undefined`). -/
def getTrade (s : Store) (id : Int) : Except String (Option Doc) :=
  let key := (Value.vNum id).jsToString
  convertFirestoreData ⟨key, aGet s.trades key⟩

/-- Embedding of `FirebaseStorage.updateTrade`: not-found check, partial
field merge of the supplied update, then re-read and re-normalize. -/
def updateTrade (s : Store) (id : Int) (tradeUpdate : Doc) :
    Except String (Doc × Store) :=
  let key := (Value.vNum id).jsToString
  match aGet s.trades key with
  | none => .error "Trade not found"
  | some tdoc =>
    let s₁ := { s with trades := aSet s.trades key (aMerge tdoc (dSerialize tradeUpdate)) }
    match convertFirestoreData ⟨key, aGet s₁.trades key⟩ with
    | .error e => .error e
    | .ok none => .error "Failed to update trade"
    | .ok (some updatedTrade) => .ok (updatedTrade, s₁)

/-- Embedding of `FirebaseStorage.deleteTrade`: `false` and no write when
the target does not exist, otherwise remove the document and return
`true`. -/
def deleteTrade (s : Store) (id : Int) : Bool × Store :=
  let key := (Value.vNum id).jsToString
  match aGet s.trades key with
  | none => (false, s)
  | some _ => (true, { s with trades := aRemove s.trades key })

/-- Embedding of `FirebaseStorage.createCollection`. -/
def createCollection (s : Store) (now : Int) (insertCollection : Doc) :
    Except String (Doc × Store) :=
  match getNextId s "collectionId" with
  | .error e => .error e
  | .ok (idv, s₁) =>
    let c :=
      aSet (aSet (aSet insertCollection
        "id" idv)
        "createdAt" (Value.vDate now))
        "description" (orNull (aGet insertCollection "description"))
    .ok (c, { s₁ with collections := aSet s₁.collections idv.jsToString (dSerialize c) })

/-- Embedding of `FirebaseStorage.getCollection`. -/
def getCollection (s : Store) (id : Int) : Except String (Option Doc) :=
  let key := (Value.vNum id).jsToString
  convertFirestoreData ⟨key, aGet s.collections key⟩

/-- Embedding of `FirebaseStorage.updateCollection`. -/
def updateCollection (s : Store) (id : Int) (collectionUpdate : Doc) :
    Except String (Doc × Store) :=
  let key := (Value.vNum id).jsToString
  match aGet s.collections key with
  | none => .error "Collection not found"
  | some cdoc =>
    let collections₁ := aSet s.collections key (aMerge cdoc (dSerialize collectionUpdate))
    let s₁ := { s with collections := collections₁ }
    match convertFirestoreData ⟨key, aGet s₁.collections key⟩ with
    | .error e => .error e
    | .ok none => .error "Failed to update collection"
    | .ok (some updatedCollection) => .ok (updatedCollection, s₁)

/-- Embedding of `FirebaseStorage.deleteCollection`. -/
def deleteCollection (s : Store) (id : Int) : Bool × Store :=
  let key := (Value.vNum id).jsToString
  match aGet s.collections key with
  | none => (false, s)
  | some _ => (true, { s with collections := aRemove s.collections key })

/-- The binding a conditional timestamp spread contributes when it does
not throw: the converted singleton for a truthy timestamp, nothing
otherwise. -/
def datePart (d : Doc) (f : String) : Doc :=
  match aGet d f with
  | some (Value.vTimestamp t) => [(f, Value.vDate t)]
  | _ => []

/-- A date field is well formed when, if present and truthy, it is a
provider timestamp (the only truthy value whose `toDate` exists). -/
def dateFieldOk (d : Doc) (f : String) : Bool :=
  match aGet d f with
  | none => true
  | some v => !v.truthy || (match v with | Value.vTimestamp _ => true | _ => false)

/-- All three well-known date fields of a document are well formed. -/
def datesOk (d : Doc) : Bool :=
  dateFieldOk d "createdAt" && dateFieldOk d "entryDate" && dateFieldOk d "exitDate"

/-- The normalized document `convertFirestoreData` builds for an existing
document: raw data, then the overriding coerced key, then the three
conditional date conversions. -/
def normChain (d : Doc) (key : String) : Doc :=
  aMerge (aMerge (aMerge (aSet d "id" (coerceKey key))
    (datePart d "createdAt")) (datePart d "entryDate")) (datePart d "exitDate")

theorem aGet_aSet_same {α : Type} (d : List (String × α)) (k : String) (v : α) :
    aGet (aSet d k v) k = some v := by
  simp [aGet, aSet]

theorem aGet_aRemove_same {α : Type} (d : List (String × α)) (k : String) :
    aGet (aRemove d k) k = none := by
  induction d with
  | nil => rfl
  | cons p t ih =>
    by_cases h : p.1 = k <;> simp [aRemove, h, aGet, ih]

theorem aGet_aRemove_ne {α : Type} (d : List (String × α)) (k q : String)
    (h : q ≠ k) : aGet (aRemove d k) q = aGet d q := by
  induction d with
  | nil => rfl
  | cons p t ih =>
    have hkq : k ≠ q := fun e => h e.symm
    by_cases hp : p.1 = k
    · simp [aRemove, hp, aGet, hkq, ih]
    · by_cases hq : p.1 = q
      · simp [aRemove, hp, aGet, hq, h]
      · simp [aRemove, hp, aGet, hq, ih]

theorem aGet_aSet_ne {α : Type} (d : List (String × α)) (k q : String) (v : α)
    (h : q ≠ k) : aGet (aSet d k v) q = aGet d q := by
  have hk : k ≠ q := fun e => h e.symm
  simp [aSet, aGet, hk, aGet_aRemove_ne d k q h]

theorem aMerge_nil {α : Type} (d : List (String × α)) : aMerge d [] = d := rfl

theorem aMerge_single {α : Type} (d : List (String × α)) (k : String) (v : α) :
    aMerge d [(k, v)] = aSet d k v := rfl

theorem timestampSpread_ok (d : Doc) (f : String) (h : dateFieldOk d f = true) :
    timestampSpread d f = .ok (datePart d f) := by
  unfold timestampSpread datePart
  unfold dateFieldOk at h
  cases hv : aGet d f with
  | none => rfl
  | some v =>
    rw [hv] at h
    cases v <;> simp_all [Value.truthy, Value.toDate]

theorem convertFirestoreData_ok (key : String) (d : Doc) (h : datesOk d = true) :
    convertFirestoreData ⟨key, some d⟩ = .ok (some (normChain d key)) := by
  unfold datesOk at h
  simp only [Bool.and_eq_true] at h
  obtain ⟨⟨h1, h2⟩, h3⟩ := h
  have e1 := timestampSpread_ok d "createdAt" h1
  have e2 := timestampSpread_ok d "entryDate" h2
  have e3 := timestampSpread_ok d "exitDate" h3
  simp [convertFirestoreData, Snapshot.docExists, e1, e2, e3, normChain]

theorem aGet_aMerge_datePart_ne (a d : Doc) (g k : String) (h : g ≠ k) :
    aGet (aMerge a (datePart d g)) k = aGet a k := by
  unfold datePart
  cases hv : aGet d g with
  | none => rfl
  | some v =>
    cases v <;>
      first
        | rfl
        | (rw [aMerge_single]; exact aGet_aSet_ne a g k _ (fun e => h e.symm))

theorem aGet_aMerge_datePart_same (a d : Doc) (g : String) :
    aGet (aMerge a (datePart d g)) g =
      match aGet d g with
      | some (Value.vTimestamp t) => some (Value.vDate t)
      | _ => aGet a g := by
  unfold datePart
  cases hv : aGet d g with
  | none => rfl
  | some v =>
    cases v <;>
      first
        | rfl
        | (rw [aMerge_single]; exact aGet_aSet_same a g _)

theorem aGet_normChain_id (d : Doc) (key : String) :
    aGet (normChain d key) "id" = some (coerceKey key) := by
  unfold normChain
  rw [aGet_aMerge_datePart_ne _ _ _ _ (by decide),
    aGet_aMerge_datePart_ne _ _ _ _ (by decide),
    aGet_aMerge_datePart_ne _ _ _ _ (by decide),
    aGet_aSet_same]

theorem aGet_normChain_other (d : Doc) (key k : String) (h1 : k ≠ "id")
    (h2 : k ≠ "createdAt") (h3 : k ≠ "entryDate") (h4 : k ≠ "exitDate") :
    aGet (normChain d key) k = aGet d k := by
  unfold normChain
  rw [aGet_aMerge_datePart_ne _ _ _ _ (fun e => h4 e.symm),
    aGet_aMerge_datePart_ne _ _ _ _ (fun e => h3 e.symm),
    aGet_aMerge_datePart_ne _ _ _ _ (fun e => h2 e.symm),
    aGet_aSet_ne _ _ _ _ h1]

theorem aGet_normChain_dateField (d : Doc) (key g : String)
    (hg : g ∈ (["createdAt", "entryDate", "exitDate"] : List String)) :
    aGet (normChain d key) g =
      match aGet d g with
      | some (Value.vTimestamp t) => some (Value.vDate t)
      | _ => aGet d g := by
  fin_cases hg
  · unfold normChain
    rw [aGet_aMerge_datePart_ne _ _ _ _ (by decide),
      aGet_aMerge_datePart_ne _ _ _ _ (by decide),
      aGet_aMerge_datePart_same]
    rw [aGet_aSet_ne _ _ _ _ (by decide)]
  · unfold normChain
    rw [aGet_aMerge_datePart_ne _ _ _ _ (by decide),
      aGet_aMerge_datePart_same]
    rw [aGet_aMerge_datePart_ne _ _ _ _ (by decide),
      aGet_aSet_ne _ _ _ _ (by decide)]
  · unfold normChain
    rw [aGet_aMerge_datePart_same]
    rw [aGet_aMerge_datePart_ne _ _ _ _ (by decide),
      aGet_aMerge_datePart_ne _ _ _ _ (by decide),
      aGet_aSet_ne _ _ _ _ (by decide)]

theorem getNextId_step (s : Store) (d : Doc) (name : String) (v : Int)
    (hc : s.counters = some d) (hd : aGet d name = some (Value.vNum v))
    (hv : 1 ≤ v) :
    getNextId s name =
      .ok (Value.vNum v,
        { s with counters := some (aSet d name (Value.vNum (v + 1))) }) := by
  have htr : (Value.vNum v).truthy = true := by
    simp only [Value.truthy, bne_iff_ne, ne_eq, decide_eq_true_eq]
    omega
  unfold getNextId
  rw [hc]
  simp [hd, htr, Value.jsPlusOne]

theorem iterNextIds_spec (name : String) (K : Nat) :
    ∀ (s : Store) (d : Doc) (v : Int), s.counters = some d →
      aGet d name = some (Value.vNum v) → 1 ≤ v →
      ∃ s₂ d₂,
        iterNextIds name K s =
          .ok ((List.range K).map (fun i : Nat => Value.vNum (v + (i : Int))), s₂) ∧
        s₂.counters = some d₂ ∧ aGet d₂ name = some (Value.vNum (v + K)) := by
  induction K with
  | zero =>
    intro s d v hc hd hv
    exact ⟨s, d, by simp [iterNextIds], hc, by simpa using hd⟩
  | succ n ih =>
    intro s d v hc hd hv
    have hstep := getNextId_step s d name v hc hd hv
    obtain ⟨s₂, d₂, h1, h2, h3⟩ :=
      ih { s with counters := some (aSet d name (Value.vNum (v + 1))) }
        (aSet d name (Value.vNum (v + 1))) (v + 1) rfl
        (aGet_aSet_same _ _ _) (by omega)
    have hl : (List.range (n + 1)).map (fun i : Nat => Value.vNum (v + (i : Int))) =
        Value.vNum v ::
          (List.range n).map (fun i : Nat => Value.vNum (v + 1 + (i : Int))) := by
      rw [List.range_succ_eq_map, List.map_cons, List.map_map]
      refine congrArg₂ List.cons (by norm_num) (List.map_congr_left ?_)
      intro i _
      simp only [Function.comp_apply]
      refine congrArg Value.vNum ?_
      push_cast
      ring
    refine ⟨s₂, d₂, ?_, h2, by rw [h3]; refine congrArg _ (congrArg _ ?_); push_cast; ring⟩
    unfold iterNextIds
    simp only [hstep, h1, hl]

theorem convertData_eq_inCollection (dc : Snapshot) (h : dc.data.isSome = true) :
    convertFirestoreData dc = Except.map some (convertDocInCollection dc) := by
  rcases dc with ⟨key, data⟩
  cases data with
  | none => simp at h
  | some d =>
    unfold convertFirestoreData convertDocInCollection
    cases h1 : timestampSpread d "createdAt" with
    | error e => simp [Snapshot.docExists, h1, Except.map]
    | ok p1 =>
      cases h2 : timestampSpread d "entryDate" with
      | error e => simp [Snapshot.docExists, h1, h2, Except.map]
      | ok p2 =>
        cases h3 : timestampSpread d "exitDate" with
        | error e => simp [Snapshot.docExists, h1, h2, h3, Except.map]
        | ok p3 => simp [Snapshot.docExists, h1, h2, h3, Except.map]

theorem convertFirestoreCollection_eq_mapExcept (docs : List Snapshot) :
    convertFirestoreCollection ⟨docs⟩ = mapExcept convertDocInCollection docs := by
  cases docs <;> rfl

theorem mapExcept_collection_single (docs : List Snapshot)
    (h : ∀ dc ∈ docs, dc.data.isSome = true) :
    Except.map (List.map some) (mapExcept convertDocInCollection docs) =
      mapExcept convertFirestoreData docs := by
  induction docs with
  | nil => rfl
  | cons dc ds ih =>
    have hdc : convertFirestoreData dc = Except.map some (convertDocInCollection dc) :=
      convertData_eq_inCollection dc (h dc (by simp))
    have hds := ih (fun x hx => h x (by simp [hx]))
    cases h1 : convertDocInCollection dc with
    | error e => simp [mapExcept, h1, hdc, Except.map]
    | ok r =>
      cases h2 : mapExcept convertDocInCollection ds with
      | error e =>
        rw [h2] at hds
        simp [mapExcept, h1, hdc, ← hds, h2, Except.map]
      | ok rs =>
        rw [h2] at hds
        simp [mapExcept, h1, hdc, ← hds, h2, Except.map]

/-- C1: for every entity kind, starting from a freshly initialized
counters document, N sequential calls to getNextId return the strictly
increasing sequence 1, 2, ..., N — each call returns the current counter
value and writes back its successor, so identifiers start at 1, never
repeat, and strictly increase per kind. -/
theorem c1_getNextId_sequential (name : String)
    (hname : name ∈ (["userId", "tradeId", "collectionId"] : List String))
    (N : Nat) :
    ∃ s₂, iterNextIds name N freshStore =
      .ok ((List.range N).map (fun i : Nat => Value.vNum ((i : Int) + 1)), s₂) := by
  have hc : freshStore.counters = some counters0 := rfl
  have hd : aGet counters0 name = some (Value.vNum 1) := by
    fin_cases hname <;> decide
  obtain ⟨s₂, d₂, h1, -, -⟩ :=
    iterNextIds_spec name N freshStore counters0 1 hc hd le_rfl
  refine ⟨s₂, ?_⟩
  rw [h1]
  refine congrArg _ (congrArg₂ Prod.mk (List.map_congr_left ?_) rfl)
  intro i _
  exact congrArg Value.vNum (by ring)

theorem c1_witness :
    ("tradeId" ∈ (["userId", "tradeId", "collectionId"] : List String)) ∧
    ∃ s₂, iterNextIds "tradeId" 3 freshStore =
      .ok ((List.range 3).map (fun i : Nat => Value.vNum ((i : Int) + 1)), s₂) :=
  ⟨by decide, c1_getNextId_sequential "tradeId" (by decide) 3⟩

/-- C9: the source executes each read-increment-write of getNextId inside
the provider's transactional primitive, so each call is one atomic step
and a concurrent execution of K calls is a serial execution of K atomic
steps; this theorem shows every such serial execution, from any counter
state with value at least 1 (all reachable states), returns pairwise
distinct identifiers — concurrent creators never collide. -/
theorem c9_concurrent_ids_distinct (name : String) (K : Nat) (s : Store)
    (d : Doc) (v : Int) (hc : s.counters = some d)
    (hd : aGet d name = some (Value.vNum v)) (hv : 1 ≤ v)
    (l : List Value) (s₂ : Store)
    (h : iterNextIds name K s = .ok (l, s₂)) :
    l.Pairwise (fun a b => a ≠ b) := by
  obtain ⟨s₃, d₃, h1, -, -⟩ := iterNextIds_spec name K s d v hc hd hv
  rw [h] at h1
  simp only [Except.ok.injEq, Prod.mk.injEq] at h1
  obtain ⟨hl, -⟩ := h1
  rw [hl, List.pairwise_map]
  refine List.Pairwise.imp ?_ (List.pairwise_lt_range K)
  intro a b hab
  simp only [ne_eq, Value.vNum.injEq]
  omega

theorem c9_witness :
    freshStore.counters = some counters0 ∧
    ([Value.vNum 1, Value.vNum 2] : List Value).Pairwise (fun a b => a ≠ b) :=
  ⟨rfl, c9_concurrent_ids_distinct "userId" 2 freshStore counters0 1 rfl (by decide)
    (by decide) [Value.vNum 1, Value.vNum 2] _ (by rfl)⟩

/-- C2: every update operation on an identifier whose document does not
exist fails with its not-found error; the check precedes any write, and
an error result carries no successor store, so the caller's store is
untouched. -/
theorem c2_update_missing_not_found (s : Store) (id : Int) (u : Doc)
    (plan customer subscription : String)
    (hu : aGet s.users ((Value.vNum id).jsToString) = none)
    (ht : aGet s.trades ((Value.vNum id).jsToString) = none)
    (hcol : aGet s.collections ((Value.vNum id).jsToString) = none) :
    updateTrade s id u = .error "Trade not found" ∧
    updateCollection s id u = .error "Collection not found" ∧
    updateUserPlan s id plan = .error "User not found" ∧
    updateUserStripeInfo s id customer subscription = .error "User not found" := by
  refine ⟨?_, ?_, ?_, ?_⟩
  · simp [updateTrade, ht]
  · simp [updateCollection, hcol]
  · simp [updateUserPlan, hu]
  · simp [updateUserStripeInfo, hu]

theorem c2_witness :
    aGet emptyStore.users ((Value.vNum 7).jsToString) = none ∧
    updateTrade emptyStore 7 [] = .error "Trade not found" ∧
    updateCollection emptyStore 7 [] = .error "Collection not found" ∧
    updateUserPlan emptyStore 7 "pro" = .error "User not found" ∧
    updateUserStripeInfo emptyStore 7 "cus" "sub" = .error "User not found" := by
  have h := c2_update_missing_not_found emptyStore 7 [] "pro" "cus" "sub" rfl rfl rfl
  exact ⟨rfl, h.1, h.2.1, h.2.2.1, h.2.2.2⟩

/-- C4: delete-by-identifier returns false and an unchanged store,
raising no error, when the target identifier is absent; when the target
exists it removes the record, returns true, and a subsequent get of the
same identifier reports not-found. -/
theorem c4_delete_semantics (s : Store) (ida idb : Int) (tdoc cdoc : Doc)
    (hta : aGet s.trades ((Value.vNum ida).jsToString) = none)
    (htb : aGet s.trades ((Value.vNum idb).jsToString) = some tdoc)
    (hca : aGet s.collections ((Value.vNum ida).jsToString) = none)
    (hcb : aGet s.collections ((Value.vNum idb).jsToString) = some cdoc) :
    deleteTrade s ida = (false, s) ∧
    deleteCollection s ida = (false, s) ∧
    (∃ s₁, deleteTrade s idb = (true, s₁) ∧ getTrade s₁ idb = .ok none) ∧
    (∃ s₂, deleteCollection s idb = (true, s₂) ∧ getCollection s₂ idb = .ok none) := by
  refine ⟨by simp [deleteTrade, hta], by simp [deleteCollection, hca], ?_, ?_⟩
  · refine ⟨{ s with trades := aRemove s.trades ((Value.vNum idb).jsToString) },
      by simp [deleteTrade, htb], ?_⟩
    simp [getTrade, aGet_aRemove_same, convertFirestoreData, Snapshot.docExists]
  · refine ⟨{ s with collections := aRemove s.collections ((Value.vNum idb).jsToString) },
      by simp [deleteCollection, hcb], ?_⟩
    simp [getCollection, aGet_aRemove_same, convertFirestoreData, Snapshot.docExists]

theorem c4_witness :
    aGet ([("1", [("userId", Value.vNum 1)])] : Coll)
        ((Value.vNum 2).jsToString) = none ∧
    deleteTrade
      { users := [], trades := [("1", [("userId", Value.vNum 1)])],
        collections := [("1", [("name", Value.vStr "c")])],
        counters := some counters0 } 2 =
      (false,
        { users := [], trades := [("1", [("userId", Value.vNum 1)])],
          collections := [("1", [("name", Value.vStr "c")])],
          counters := some counters0 }) ∧
    (∃ s₁,
      deleteTrade
        { users := [], trades := [("1", [("userId", Value.vNum 1)])],
          collections := [("1", [("name", Value.vStr "c")])],
          counters := some counters0 } 1 = (true, s₁) ∧
      getTrade s₁ 1 = .ok none) := by
  have h := c4_delete_semantics
    { users := [], trades := [("1", [("userId", Value.vNum 1)])],
      collections := [("1", [("name", Value.vStr "c")])],
      counters := some counters0 } 2 1
    [("userId", Value.vNum 1)] [("name", Value.vStr "c")]
    rfl rfl rfl rfl
  exact ⟨rfl, h.1, h.2.2.1⟩

/-- C3: for every stored document and raw key, normalization assigns as
the returned record's identifier the numeric coercion of the key when the
key string coerces to a number and the key string itself otherwise; the
raw payload is universally quantified, so a payload carrying its own id
field is overridden by this assignment. -/
theorem c3_convert_id_assignment (key : String) (d : Doc)
    (h : datesOk d = true) :
    ∃ r, convertFirestoreData ⟨key, some d⟩ = .ok (some r) ∧
      aGet r "id" = some (match jsStringToNumber key with
        | some n => Value.vNum n
        | none => Value.vStr key) := by
  refine ⟨normChain d key, convertFirestoreData_ok key d h, ?_⟩
  rw [aGet_normChain_id]
  rfl

theorem c3_witness :
    (datesOk [("id", Value.vStr "zzz")] = true ∧
      ∃ r, convertFirestoreData ⟨"42", some [("id", Value.vStr "zzz")]⟩ =
        .ok (some r) ∧ aGet r "id" = some (Value.vNum 42)) ∧
    (∃ r, convertFirestoreData ⟨"abc", some []⟩ = .ok (some r) ∧
      aGet r "id" = some (Value.vStr "abc")) := by
  constructor
  · refine ⟨by decide, ?_⟩
    obtain ⟨r, h1, h2⟩ :=
      c3_convert_id_assignment "42" [("id", Value.vStr "zzz")] (by decide)
    refine ⟨r, h1, ?_⟩
    rw [h2]
    decide
  · obtain ⟨r, h1, h2⟩ := c3_convert_id_assignment "abc" [] (by decide)
    refine ⟨r, h1, ?_⟩
    rw [h2]
    decide

/-- C7 counterexample: a raw payload whose exitDate field is present but
null normalizes to an output that still carries an exitDate field holding
the raw null, not a native date value, refuting the claim that every
present date field is converted into a native date. -/
theorem c7_counterexample :
    convertFirestoreData ⟨"7", some [("exitDate", Value.vNull)]⟩ =
      .ok (some [("id", Value.vNum 7), ("exitDate", Value.vNull)]) := by
  rfl

/-- C7 amended: for each of createdAt, entryDate and exitDate, on
documents whose truthy date fields are provider timestamps: a field
present with a truthy value is converted to the native date of the same
instant; a field present with a falsy value (such as null) passes through
unchanged and unconverted; an absent field is absent from the output. -/
theorem c7_dateField_conversion (key : String) (d : Doc) (f : String)
    (hf : f ∈ (["createdAt", "entryDate", "exitDate"] : List String))
    (h : datesOk d = true) :
    ∃ r, convertFirestoreData ⟨key, some d⟩ = .ok (some r) ∧
      (aGet d f = none → aGet r f = none) ∧
      (∀ v, aGet d f = some v → v.truthy = false → aGet r f = some v) ∧
      (∀ t, aGet d f = some (Value.vTimestamp t) → aGet r f = some (Value.vDate t)) := by
  have hch := aGet_normChain_dateField d key f hf
  refine ⟨normChain d key, convertFirestoreData_ok key d h, ?_, ?_, ?_⟩
  · intro hnone
    rw [hch, hnone]
  · intro v hv htr
    rw [hch, hv]
    cases v <;> simp_all [Value.truthy]
  · intro t ht
    rw [hch, ht]

theorem c7_witness :
    ("createdAt" ∈ (["createdAt", "entryDate", "exitDate"] : List String)) ∧
    datesOk [("createdAt", Value.vTimestamp 5), ("exitDate", Value.vNull)] = true ∧
    ∃ r, convertFirestoreData
        ⟨"1", some [("createdAt", Value.vTimestamp 5), ("exitDate", Value.vNull)]⟩ =
        .ok (some r) ∧
      (aGet [("createdAt", Value.vTimestamp 5), ("exitDate", Value.vNull)] "createdAt" = none →
        aGet r "createdAt" = none) ∧
      (∀ v, aGet [("createdAt", Value.vTimestamp 5), ("exitDate", Value.vNull)] "createdAt" = some v →
        v.truthy = false → aGet r "createdAt" = some v) ∧
      (∀ t, aGet [("createdAt", Value.vTimestamp 5), ("exitDate", Value.vNull)] "createdAt" =
        some (Value.vTimestamp t) → aGet r "createdAt" = some (Value.vDate t)) :=
  ⟨by decide, by decide,
    c7_dateField_conversion "1"
      [("createdAt", Value.vTimestamp 5), ("exitDate", Value.vNull)]
      "createdAt" (by decide) (by decide)⟩

/-- C8: over a query result set — whose documents all exist with data,
the provider guarantee for query snapshots — the collection variant of
normalization returns exactly the single-document transform applied to
each document in order, and the empty result set yields the empty
sequence, never an absent value. -/
theorem c8_collection_refines_single (docs : List Snapshot)
    (h : ∀ dc ∈ docs, dc.data.isSome = true) :
    Except.map (List.map some) (convertFirestoreCollection ⟨docs⟩) =
      mapExcept convertFirestoreData docs ∧
    convertFirestoreCollection ⟨[]⟩ = .ok [] := by
  refine ⟨?_, rfl⟩
  rw [convertFirestoreCollection_eq_mapExcept]
  exact mapExcept_collection_single docs h

theorem c8_witness :
    (∀ dc ∈ ([⟨"42", some [("a", Value.vStr "b")]⟩, ⟨"abc", some []⟩] :
      List Snapshot), dc.data.isSome = true) ∧
    Except.map (List.map some) (convertFirestoreCollection
        ⟨[⟨"42", some [("a", Value.vStr "b")]⟩, ⟨"abc", some []⟩]⟩) =
      mapExcept convertFirestoreData
        [⟨"42", some [("a", Value.vStr "b")]⟩, ⟨"abc", some []⟩] :=
  ⟨by decide,
    (c8_collection_refines_single
      [⟨"42", some [("a", Value.vStr "b")]⟩, ⟨"abc", some []⟩] (by decide)).1⟩

theorem timestampSpread_ok_inv (d : Doc) (f : String) (p : Doc)
    (h : timestampSpread d f = .ok p) : dateFieldOk d f = true := by
  unfold timestampSpread at h
  unfold dateFieldOk
  cases hv : aGet d f with
  | none => rfl
  | some v =>
    rw [hv] at h
    by_cases ht : v.truthy
    · cases v <;> simp_all [Value.toDate, Value.truthy]
    · simp [ht]

theorem convertFirestoreData_ok_inv (key : String) (d : Doc) (r : Doc)
    (h : convertFirestoreData ⟨key, some d⟩ = .ok (some r)) :
    datesOk d = true ∧ r = normChain d key := by
  unfold convertFirestoreData at h
  simp only [Snapshot.docExists, Option.isSome_some, Bool.not_true,
    Bool.false_eq_true, if_false] at h
  cases e1 : timestampSpread d "createdAt" with
  | error e => rw [e1] at h; simp at h
  | ok p1 =>
    cases e2 : timestampSpread d "entryDate" with
    | error e => rw [e1, e2] at h; simp at h
    | ok p2 =>
      cases e3 : timestampSpread d "exitDate" with
      | error e => rw [e1, e2, e3] at h; simp at h
      | ok p3 =>
        rw [e1, e2, e3] at h
        simp only [Except.ok.injEq, Option.some.injEq] at h
        have f1 := timestampSpread_ok_inv d "createdAt" p1 e1
        have f2 := timestampSpread_ok_inv d "entryDate" p2 e2
        have f3 := timestampSpread_ok_inv d "exitDate" p3 e3
        have hp1 : p1 = datePart d "createdAt" := by
          have g1 := timestampSpread_ok d "createdAt" f1
          rw [e1] at g1
          injection g1
        have hp2 : p2 = datePart d "entryDate" := by
          have g2 := timestampSpread_ok d "entryDate" f2
          rw [e2] at g2
          injection g2
        have hp3 : p3 = datePart d "exitDate" := by
          have g3 := timestampSpread_ok d "exitDate" f3
          rw [e3] at g3
          injection g3
        refine ⟨by simp [datesOk, f1, f2, f3], ?_⟩
        rw [← h, hp1, hp2, hp3]
        rfl

/-- C6: updating only the notes field of an existing trade returns a
record whose notes equal the supplied string, and every other field of
the observable (normalized) record equals the corresponding field of the
record observable before the update: only the listed field is replaced. -/
theorem c6_updateTrade_notes_frame (s : Store) (id : Int) (x : String)
    (before : Doc) (h1 : getTrade s id = .ok (some before)) :
    ∃ after s₁, updateTrade s id [("notes", Value.vStr x)] = .ok (after, s₁) ∧
      aGet after "notes" = some (Value.vStr x) ∧
      ∀ k, k ≠ "notes" → aGet after k = aGet before k := by
  unfold getTrade at h1
  cases hd : aGet s.trades ((Value.vNum id).jsToString) with
  | none =>
    simp only [hd] at h1
    simp [convertFirestoreData, Snapshot.docExists] at h1
  | some tdoc =>
    simp only [hd] at h1
    obtain ⟨hwf, hbefore⟩ := convertFirestoreData_ok_inv _ _ _ h1
    have hmerge : aMerge tdoc (dSerialize [("notes", Value.vStr x)]) =
        aSet tdoc "notes" (Value.vStr x) := rfl
    have hwf₁ : datesOk (aSet tdoc "notes" (Value.vStr x)) = true := by
      have hwf₀ := hwf
      unfold datesOk dateFieldOk at hwf₀ ⊢
      rw [aGet_aSet_ne _ _ _ _ (by decide), aGet_aSet_ne _ _ _ _ (by decide),
        aGet_aSet_ne _ _ _ _ (by decide)]
      exact hwf₀
    have hconv := convertFirestoreData_ok ((Value.vNum id).jsToString)
      (aSet tdoc "notes" (Value.vStr x)) hwf₁
    refine ⟨normChain (aSet tdoc "notes" (Value.vStr x)) ((Value.vNum id).jsToString),
      { s with trades := aSet s.trades ((Value.vNum id).jsToString) (aSet tdoc "notes" (Value.vStr x)) },
      ?_, ?_, ?_⟩
    · unfold updateTrade
      simp only [hd, hmerge, aGet_aSet_same, hconv]
    · rw [aGet_normChain_other _ _ _ (by decide) (by decide) (by decide) (by decide),
        aGet_aSet_same]
    · intro k hk
      subst hbefore
      by_cases hid : k = "id"
      · subst hid
        rw [aGet_normChain_id, aGet_normChain_id]
      · by_cases hdf : k = "createdAt" ∨ k = "entryDate" ∨ k = "exitDate"
        · have hmem : k ∈ (["createdAt", "entryDate", "exitDate"] : List String) := by
            rcases hdf with h' | h' | h' <;> simp [h']
          rw [aGet_normChain_dateField _ _ _ hmem, aGet_normChain_dateField _ _ _ hmem,
            aGet_aSet_ne _ _ _ _ hk]
        · push_neg at hdf
          obtain ⟨n1, n2, n3⟩ := hdf
          rw [aGet_normChain_other _ _ _ hid n1 n2 n3,
            aGet_normChain_other _ _ _ hid n1 n2 n3, aGet_aSet_ne _ _ _ _ hk]

theorem c6_witness :
    getTrade
      { users := [], trades := [("1", [("userId", Value.vNum 1), ("notes", Value.vNull)])],
        collections := [], counters := some counters0 } 1 =
      .ok (some [("id", Value.vNum 1), ("userId", Value.vNum 1), ("notes", Value.vNull)]) ∧
    ∃ after s₁,
      updateTrade
        { users := [], trades := [("1", [("userId", Value.vNum 1), ("notes", Value.vNull)])],
          collections := [], counters := some counters0 } 1
        [("notes", Value.vStr "x")] = .ok (after, s₁) ∧
      aGet after "notes" = some (Value.vStr "x") ∧
      ∀ k, k ≠ "notes" → aGet after k =
        aGet [("id", Value.vNum 1), ("userId", Value.vNum 1), ("notes", Value.vNull)] k :=
  ⟨by rfl,
    c6_updateTrade_notes_frame
      { users := [], trades := [("1", [("userId", Value.vNum 1), ("notes", Value.vNull)])],
        collections := [], counters := some counters0 } 1 "x"
      [("id", Value.vNum 1), ("userId", Value.vNum 1), ("notes", Value.vNull)] (by rfl)⟩

/-- C5: each create operation allocates a fresh identifier via getNextId,
stamps a creation date, applies its kind's defaults, writes the full
(provider-serialized) record under the string form of the identifier, and
returns the constructed record itself — its creation stamp is the raw
platform date, not the re-read provider timestamp, and every
non-defaulted payload field is returned untouched. -/
theorem c5_create_semantics (su st sc su₁ st₁ sc₁ : Store)
    (now vu vt vc : Int) (insU insT insC : Doc)
    (hu : getNextId su "userId" = .ok (Value.vNum vu, su₁))
    (ht : getNextId st "tradeId" = .ok (Value.vNum vt, st₁))
    (hc : getNextId sc "collectionId" = .ok (Value.vNum vc, sc₁)) :
    (∃ rec, createUser su now insU =
        .ok (rec, { su₁ with users := aSet su₁.users ((Value.vNum vu).jsToString) (dSerialize rec) }) ∧
      aGet rec "id" = some (Value.vNum vu) ∧
      aGet rec "createdAt" = some (Value.vDate now) ∧
      aGet rec "planType" = some (Value.vStr "free") ∧
      aGet rec "stripeCustomerId" = some Value.vNull ∧
      aGet rec "stripeSubscriptionId" = some Value.vNull ∧
      aGet rec "avatar" = some (orNull (aGet insU "avatar")) ∧
      ∀ k, k ∉ (["id", "createdAt", "stripeCustomerId", "stripeSubscriptionId", "planType", "avatar"] : List String) →
        aGet rec k = aGet insU k) ∧
    (∃ rec, createTrade st now insT =
        .ok (rec, { st₁ with trades := aSet st₁.trades ((Value.vNum vt).jsToString) (dSerialize rec) }) ∧
      aGet rec "id" = some (Value.vNum vt) ∧
      aGet rec "createdAt" = some (Value.vDate now) ∧
      aGet rec "notes" = some (orNull (aGet insT "notes")) ∧
      aGet rec "collectionId" = some (orNull (aGet insT "collectionId")) ∧
      ∀ k, k ∉ (["id", "createdAt", "notes", "collectionId"] : List String) →
        aGet rec k = aGet insT k) ∧
    (∃ rec, createCollection sc now insC =
        .ok (rec, { sc₁ with collections := aSet sc₁.collections ((Value.vNum vc).jsToString) (dSerialize rec) }) ∧
      aGet rec "id" = some (Value.vNum vc) ∧
      aGet rec "createdAt" = some (Value.vDate now) ∧
      aGet rec "description" = some (orNull (aGet insC "description")) ∧
      ∀ k, k ∉ (["id", "createdAt", "description"] : List String) →
        aGet rec k = aGet insC k) := by
  refine ⟨?_, ?_, ?_⟩
  · unfold createUser
    simp only [hu]
    refine ⟨_, rfl, ?_, ?_, ?_, ?_, ?_, ?_, ?_⟩
    · simp [aGet_aSet_same, aGet_aSet_ne]
    · simp [aGet_aSet_same, aGet_aSet_ne]
    · simp [aGet_aSet_same, aGet_aSet_ne]
    · simp [aGet_aSet_same, aGet_aSet_ne]
    · simp [aGet_aSet_same, aGet_aSet_ne]
    · simp [aGet_aSet_same, aGet_aSet_ne]
    · intro k hk
      simp only [List.mem_cons, List.not_mem_nil, or_false, not_or] at hk
      obtain ⟨n1, n2, n3, n4, n5, n6⟩ := hk
      rw [aGet_aSet_ne _ _ _ _ n6, aGet_aSet_ne _ _ _ _ n5, aGet_aSet_ne _ _ _ _ n4,
        aGet_aSet_ne _ _ _ _ n3, aGet_aSet_ne _ _ _ _ n2, aGet_aSet_ne _ _ _ _ n1]
  · unfold createTrade
    simp only [ht]
    refine ⟨_, rfl, ?_, ?_, ?_, ?_, ?_⟩
    · simp [aGet_aSet_same, aGet_aSet_ne]
    · simp [aGet_aSet_same, aGet_aSet_ne]
    · simp [aGet_aSet_same, aGet_aSet_ne]
    · simp [aGet_aSet_same, aGet_aSet_ne]
    · intro k hk
      simp only [List.mem_cons, List.not_mem_nil, or_false, not_or] at hk
      obtain ⟨n1, n2, n3, n4⟩ := hk
      rw [aGet_aSet_ne _ _ _ _ n4, aGet_aSet_ne _ _ _ _ n3,
        aGet_aSet_ne _ _ _ _ n2, aGet_aSet_ne _ _ _ _ n1]
  · unfold createCollection
    simp only [hc]
    refine ⟨_, rfl, ?_, ?_, ?_, ?_⟩
    · simp [aGet_aSet_same, aGet_aSet_ne]
    · simp [aGet_aSet_same, aGet_aSet_ne]
    · simp [aGet_aSet_same, aGet_aSet_ne]
    · intro k hk
      simp only [List.mem_cons, List.not_mem_nil, or_false, not_or] at hk
      obtain ⟨n1, n2, n3⟩ := hk
      rw [aGet_aSet_ne _ _ _ _ n3, aGet_aSet_ne _ _ _ _ n2, aGet_aSet_ne _ _ _ _ n1]

theorem c5_witness :
    getNextId freshStore "userId" =
      .ok (Value.vNum 1,
        { users := [], trades := [], collections := [],
          counters := some [("userId", Value.vNum 2), ("tradeId", Value.vNum 1), ("collectionId", Value.vNum 1)] }) ∧
    ∃ rec, aGet rec "planType" = some (Value.vStr "free") ∧
      aGet rec "id" = some (Value.vNum 1) ∧
      aGet rec "createdAt" = some (Value.vDate 100) ∧
      aGet rec "username" = some (Value.vStr "alice") ∧
      createUser freshStore 100 [("username", Value.vStr "alice")] =
        .ok (rec,
          { users := [((Value.vNum 1).jsToString, dSerialize rec)], trades := [], collections := [],
            counters := some [("userId", Value.vNum 2), ("tradeId", Value.vNum 1), ("collectionId", Value.vNum 1)] }) := by
  obtain ⟨⟨rec, h1, h2, h3, h4, h5, h6, h7, h8⟩, -, -⟩ :=
    c5_create_semantics freshStore freshStore freshStore _ _ _ 100 1 1 1
      [("username", Value.vStr "alice")] [] [] rfl rfl rfl
  exact ⟨rfl, rec, h4, h2, h3, h8 "username" (by decide), h1⟩

theorem aGet_dSerialize (d : Doc) (k : String) :
    aGet (dSerialize d) k = (aGet d k).map Value.serializeV := by
  unfold dSerialize
  induction d with
  | nil => rfl
  | cons p t ih =>
    by_cases h : p.1 = k <;> simp [aGet, h, ih]

/-- C10: createUser forces planType to "free" and both Stripe references
to null for every insert payload — the payload is universally quantified
and may itself bind those fields, in which case they are overridden, not
merely defaulted — both in the returned record and in the (serialized)
record stored under the identifier's string key, while a supplied truthy
avatar value is kept in the returned record. -/
theorem c10_createUser_overrides (s s₁ : Store) (now v : Int) (ins : Doc)
    (h : getNextId s "userId" = .ok (Value.vNum v, s₁)) :
    ∃ rec, createUser s now ins =
        .ok (rec, { s₁ with users := aSet s₁.users ((Value.vNum v).jsToString) (dSerialize rec) }) ∧
      aGet rec "planType" = some (Value.vStr "free") ∧
      aGet rec "stripeCustomerId" = some Value.vNull ∧
      aGet rec "stripeSubscriptionId" = some Value.vNull ∧
      aGet (dSerialize rec) "planType" = some (Value.vStr "free") ∧
      aGet (dSerialize rec) "stripeCustomerId" = some Value.vNull ∧
      aGet (dSerialize rec) "stripeSubscriptionId" = some Value.vNull ∧
      (∀ av, aGet ins "avatar" = some av → av.truthy = true →
        aGet rec "avatar" = some av) := by
  unfold createUser
  simp only [h]
  refine ⟨_, rfl, ?_, ?_, ?_, ?_, ?_, ?_, ?_⟩
  · simp [aGet_aSet_same, aGet_aSet_ne]
  · simp [aGet_aSet_same, aGet_aSet_ne]
  · simp [aGet_aSet_same, aGet_aSet_ne]
  · simp [aGet_dSerialize, aGet_aSet_same, aGet_aSet_ne, Value.serializeV]
  · simp [aGet_dSerialize, aGet_aSet_same, aGet_aSet_ne, Value.serializeV]
  · simp [aGet_dSerialize, aGet_aSet_same, aGet_aSet_ne, Value.serializeV]
  · intro av hav htr
    rw [aGet_aSet_same, hav]
    simp [orNull, htr]

theorem c10_witness :
    ∃ rec, createUser freshStore 5
        [("planType", Value.vStr "pro"), ("stripeCustomerId", Value.vStr "x"), ("avatar", Value.vStr "pic")] =
        .ok (rec,
          { users := [((Value.vNum 1).jsToString, dSerialize rec)], trades := [], collections := [],
            counters := some [("userId", Value.vNum 2), ("tradeId", Value.vNum 1), ("collectionId", Value.vNum 1)] }) ∧
      aGet rec "planType" = some (Value.vStr "free") ∧
      aGet rec "stripeCustomerId" = some Value.vNull ∧
      aGet rec "stripeSubscriptionId" = some Value.vNull ∧
      aGet (dSerialize rec) "planType" = some (Value.vStr "free") ∧
      aGet (dSerialize rec) "stripeCustomerId" = some Value.vNull ∧
      aGet (dSerialize rec) "stripeSubscriptionId" = some Value.vNull ∧
      aGet rec "avatar" = some (Value.vStr "pic") := by
  obtain ⟨rec, h1, h2, h3, h4, h5, h6, h7, h8⟩ :=
    c10_createUser_overrides freshStore _ 5 1
      [("planType", Value.vStr "pro"), ("stripeCustomerId", Value.vStr "x"), ("avatar", Value.vStr "pic")]
      rfl
  exact ⟨rec, h1, h2, h3, h4, h5, h6, h7, h8 (Value.vStr "pic") (by decide) (by decide)⟩

